import Mathlib

/-!
Shallow embedding of the document-extraction pipeline of
`app/services/document_processor.py` and `app/services/openai_service.py`.

Records returned by the pipeline are Python dicts with string keys and
string values; we embed them as insertion-ordered association lists
(`Record`).  `List.lookup` matches Python's key lookup (keys produced by
the code are unique, and lookup takes the first binding).  External
effects (the PDF library, the OpenAI client, `json.loads`) are modelled
as explicit injected outcomes: `Except String α` / `Option α` where the
error side stands for a raised Python exception carrying its message
string, and the JSON decoder is a parameter `J : String → Option Record`
standing for `json.loads` restricted to flat string-valued objects
(`none` = `json.JSONDecodeError` or non-decodable text).
-/

/-- A Python dict with string keys/values, in insertion order. -/
abbrev Record := List (String × String)

/-- Python's `str.strip()` (no argument): drop leading and trailing
whitespace.  Defined structurally on the character list so that it
evaluates inside the kernel. -/
def pyStrip (s : String) : String :=
  String.mk (((s.data.dropWhile Char.isWhitespace).reverse.dropWhile
    Char.isWhitespace).reverse)

/-- `r.get(k, dflt)` of a Python dict. -/
def dictGet (r : Record) (k : String) (dflt : String) : String :=
  (List.lookup k r).getD dflt

/-- `r[k] = v` on a Python dict: replace in place if the key exists,
otherwise append at the end (insertion order). -/
def dictSet (r : Record) (k : String) (v : String) : Record :=
  if (List.lookup k r).isSome then
    r.map (fun p => if p.1 = k then (k, v) else p)
  else
    r ++ [(k, v)]

/-- The `required_fields` list of both
`_parse_extraction_response` and `_calculate_completeness_score`. -/
def requiredFields : List String :=
  ["patient_first_name", "patient_last_name", "patient_dob"]

/-- `OpenAIService._fallback_parsing`: the scanning loop assigns nothing,
so the function returns this fixed degraded record for every input. -/
def fallbackParsing (response : String) : Record :=
  [("patient_first_name", "Not Found"),
   ("patient_last_name", "Not Found"),
   ("patient_dob", "Not Found"),
   ("confidence", "low"),
   ("notes", "Used fallback parsing method")]

/-- The greedy DOTALL regex search `\x7b.*\x7d` of
`_parse_extraction_response`: the match (if any) runs from the first
brace-open character to the last brace-close character of the string,
and exists iff some brace-close occurs strictly after the first
brace-open. -/
def jsonSubstring (response : String) : Option String :=
  let cs := response.data
  match cs.findIdx? (fun c => c = '{') with
  | none => none
  | some i =>
    match cs.reverse.findIdx? (fun c => c = '}') with
    | none => none
    | some jr =>
      let j := cs.length - 1 - jr
      if i < j then some (String.mk ((cs.drop i).take (j - i + 1))) else none

/-- One iteration of the defaulting loop of `_parse_extraction_response`:
`if field not in data: data[field] = "Not Found"`.  A new key assigned
to a Python dict is appended at the end. -/
def ensureStep (d : Record) (f : String) : Record :=
  if (List.lookup f d).isSome then d else d ++ [(f, "Not Found")]

/-- The defaulting loop of `_parse_extraction_response`:
`for field in required_fields: if field not in data: data[field] = "Not Found"`. -/
def ensureRequired (data : Record) : Record :=
  requiredFields.foldl ensureStep data

/-- `OpenAIService._parse_extraction_response`, with `json.loads`
abstracted as `J` (`none` = decode raises `json.JSONDecodeError`).
Both failure branches and the catch-all `except` return
`_fallback_parsing(response)`. -/
def parseResponse (J : String → Option Record) (response : String) : Record :=
  match jsonSubstring response with
  | some jsonStr =>
    match J jsonStr with
    | some data => ensureRequired data
    | none => fallbackParsing response
  | none => fallbackParsing response

/-- `DocumentProcessor._calculate_completeness_score`: one point per
required field whose value is neither the sentinel `"Not Found"` nor
empty after stripping whitespace. -/
def calculateCompletenessScore (result : Record) : Nat :=
  requiredFields.foldl
    (fun score f =>
      let value := dictGet result f "Not Found"
      if value ≠ "Not Found" ∧ pyStrip value ≠ "" then score + 1 else score)
    0

/-- `DocumentProcessor._is_good_result`: stop early on a score of at
least 2 with high confidence, or a full score. -/
def isGoodResult (result : Record) : Bool :=
  let score := calculateCompletenessScore result
  let confidence := dictGet result "confidence" "low"
  if 2 ≤ score ∧ confidence = "high" then true
  else if 3 ≤ score then true
  else false

/-- `DocumentProcessor._get_fallback_result`. -/
def fallbackResult (errorMessage : String) : Record :=
  [("patient_first_name", "Not Found"),
   ("patient_last_name", "Not Found"),
   ("patient_dob", "Not Found"),
   ("confidence", "low"),
   ("notes", "Processing failed: " ++ errorMessage)]

/-- The scan loop of `DocumentProcessor._combine_results`:
start from the first record and replace the incumbent only on a
strictly greater completeness score (so the earliest record wins ties). -/
def pickBest (best : Record) : List Record → Record
  | [] => best
  | r :: rs =>
    if calculateCompletenessScore best < calculateCompletenessScore r then
      pickBest r rs
    else
      pickBest best rs

/-- `DocumentProcessor._combine_results`. -/
def combineResults (results : List Record) : Record :=
  match results with
  | [] =>
    [("patient_first_name", "Not Found"),
     ("patient_last_name", "Not Found"),
     ("patient_dob", "Not Found"),
     ("confidence", "low"),
     ("notes", "No data extracted from any page")]
  | r0 :: rest =>
    let best := pickBest r0 rest
    if results.length > 1 then
      dictSet best "notes"
        ("Processed " ++ toString results.length ++ " pages. " ++
          dictGet best "notes" "")
    else best

/-!
A page image is opaque to the pipeline except for what
`_process_single_image_with_timeout` eventually yields for it, so a
rendered page image is embedded as that outcome: `none` models the
per-page task raising (a Vision-API `HTTPException` or the 60s
`asyncio.TimeoutError`), `some r` models a task that returned the
parsed record `r` (`_parse_extraction_response` itself never raises).
`asyncio.gather(..., return_exceptions=True)` yields the batch's
outcomes in submission order, which is the order the collection loop
inspects them in; the 120s wall-clock batch timeout is real time and is
not modelled (no batch times out here).
-/

/-- The result-collection loop of `_extract_from_images_parallel` run
over one batch's gathered outcomes, threading the accumulated
`all_results`: exceptions are logged and skipped, normal results are
appended, and the first appended result that satisfies
`_is_good_result` returns `combine_results(all_results)` at once. -/
def scanResults (acc : List Record) :
    List (Option Record) → List Record × Option Record
  | [] => (acc, none)
  | none :: rest => scanResults acc rest
  | some r :: rest =>
    if isGoodResult r then (acc ++ [r], some (combineResults (acc ++ [r])))
    else scanResults (acc ++ [r]) rest

/-- The batch loop of `_extract_from_images_parallel`: slices of
`batch_size = 2` pages are processed in order, the collection loop runs
over each gathered batch, and after the last batch the collected
results are combined (`none` when nothing was collected, matching
`return None`). -/
def runBatches (acc : List Record) (outcomes : List (Option Record)) :
    Option Record :=
  match outcomes with
  | [] => if acc.isEmpty then none else some (combineResults acc)
  | o :: rest =>
    match scanResults acc (List.take 2 (o :: rest)) with
    | (_, some result) => some result
    | (acc2, none) => runBatches acc2 (List.drop 2 (o :: rest))
termination_by outcomes.length
decreasing_by
  simp only [List.length_drop, List.length_cons]
  omega

/-- `DocumentProcessor._extract_from_images_parallel` on the list of
per-page outcomes.  The Python body is wrapped in a catch-all `except`
returning `None`; every operation in it is modelled totally, so the
function completes normally on every input. -/
def extractFromImagesParallel (images : List (Option Record)) : Option Record :=
  runBatches [] images

/-- The page loop of `_extract_from_images_sequential`: pages one at a
time, a raising page is logged and skipped, each result is appended,
and the loop breaks as soon as the newest result is good. -/
def seqLoop (acc : List Record) : List (Option Record) → List Record
  | [] => acc
  | none :: rest => seqLoop acc rest
  | some r :: rest =>
    if isGoodResult r then acc ++ [r] else seqLoop (acc ++ [r]) rest

/-- `DocumentProcessor._extract_from_images_sequential`. -/
def extractFromImagesSequential (images : List (Option Record)) : Record :=
  let allResults := seqLoop [] images
  if allResults.isEmpty then
    fallbackResult "Failed to process any pages with Vision API"
  else combineResults allResults

/-- Which way `_extract_from_images` produced its record. -/
inductive ImagesPath where
  | noImages : ImagesPath
  | parallelReturn : ImagesPath
  | sequentialFallback : ImagesPath
deriving DecidableEq, Repr

/-- `DocumentProcessor._extract_from_images`, instrumented with the
path taken.  `if not images` guards first; then
`result = await self._extract_from_images_parallel(images)` and
`if result: return result` — a `None` result (and, vacuously for real
parse outputs, an empty dict) falls through to
`_extract_from_images_sequential(images)`.  The parallel callee
completes normally on every input (its own catch-all returns `None`),
so the `except` arm around it is dead in the model. -/
def extractFromImagesTraced (images : List (Option Record)) :
    Record × ImagesPath :=
  if images.isEmpty then
    (fallbackResult "No images could be extracted from PDF", .noImages)
  else
    match extractFromImagesParallel images with
    | some r =>
      if r.isEmpty then (extractFromImagesSequential images, .sequentialFallback)
      else (r, .parallelReturn)
    | none => (extractFromImagesSequential images, .sequentialFallback)

/-- `DocumentProcessor._extract_from_images` (record only). -/
def extractFromImages (images : List (Option Record)) : Record :=
  (extractFromImagesTraced images).1

/-- One page of an opened PDF document.  `text` is the outcome of
`page.get_text()` (`none` = it raised, so `_extract_text_from_pdf`
skips the page); `image` is the outcome of rendering the page in
`_convert_pdf_to_images` (`none` = rendering raised, so the page is
skipped), and a rendered image is embedded as its eventual per-page
extraction outcome (see above). -/
structure Page where
  text : Option String
  image : Option (Option Record)
deriving DecidableEq

/-- An opened PDF document: `page_count = pages.length`. -/
structure PdfDoc where
  pages : List Page

/-- Outcome of `fitz.open(stream=..., filetype="pdf")` when it raises:
`_process_pdf` distinguishes `fitz.FileDataError` from any other
exception.  The payload is the exception's message string. -/
inductive PdfError where
  | fileData : String → PdfError
  | other : String → PdfError

/-- `DocumentProcessor._extract_text_from_pdf`: concatenate each page's
text, skipping pages whose `get_text()` raised. -/
def extractTextFromPdf (pages : List Page) : String :=
  pages.foldl
    (fun acc p => match p.text with | some t => acc ++ t | none => acc) ""

/-- `DocumentProcessor._convert_pdf_to_images`: pages that fail to
render are skipped silently; the rest yield their images in order. -/
def convertPdfToImages (pages : List Page) : List (Option Record) :=
  pages.filterMap (fun p => p.image)

/-- `OpenAIService._extract_with_text` builds its single chat message
from the prompt and a local variable
`text_content = "PDF content would be extracted here"` — the
`file_content` argument is never used, so the document's real text
never reaches the model. -/
def extractWithTextMessage (prompt : String) (fileContent : String) : String :=
  let text_content := "PDF content would be extracted here"
  prompt ++ "\n\nDocument content: " ++ text_content

/-- All injected external outcomes one `process_document` call can
consume.  `doc` is the `fitz.open` outcome; `textResp` the raw
response (or raised exception message) of the text-path AI call;
`visionResp` the same for the whole-file vision call of the non-PDF
branch. -/
structure FileEnv where
  doc : Except PdfError PdfDoc
  textResp : Except String String
  visionResp : Except String String

/-- Python's `filename.lower()` (ASCII case, which is all `.pdf`
dispatch needs). -/
def lowerStr (s : String) : String := String.mk (s.data.map Char.toLower)

/-- Python's `str.endswith`, structurally on character lists. -/
def pyEndsWith (s t : String) : Bool := List.isSuffixOf t.data s.data

/-- `DocumentProcessor._extract_from_text`: one text-path AI call whose
response is parsed once; its catch-all `except` re-raises, so a raised
`HTTPException` from `_extract_with_text` propagates to the caller.
`.error m` carries the message of that exception. -/
def extractFromText (J : String → Option Record)
    (textResp : Except String String) : Except String Record :=
  match textResp with
  | .ok raw => .ok (parseResponse J raw)
  | .error m => .error m

/-- `DocumentProcessor._process_pdf`.  It catches `fitz.FileDataError`
and every other exception itself, so it always returns a record. -/
def processPdf (J : String → Option Record) (doc : Except PdfError PdfDoc)
    (textResp : Except String String) : Record :=
  match doc with
  | .error (.fileData m) => fallbackResult ("PDF file is corrupted: " ++ m)
  | .error (.other m) => fallbackResult ("PDF processing error: " ++ m)
  | .ok pdf =>
    if pdf.pages.length = 0 then fallbackResult "PDF has no pages"
    else
      let textContent := extractTextFromPdf pdf.pages
      if pyStrip textContent ≠ "" then
        match extractFromText J textResp with
        | .ok parsed => parsed
        | .error m => fallbackResult ("PDF processing error: " ++ m)
      else
        extractFromImages (convertPdfToImages pdf.pages)

/-- `OpenAIService.extract_patient_data`: pick the text call for a
`.pdf` filename and the vision call otherwise, parse the response, and
wrap any exception into a raised `HTTPException` whose detail prefixes
`"Failed to extract data: "` (the exception message stands for the
`str(e)` of the raised error). -/
def extractPatientData (J : String → Option Record) (filename : String)
    (textResp visionResp : Except String String) : Except String Record :=
  let resp :=
    if pyEndsWith (lowerStr filename) ".pdf" then textResp else visionResp
  match resp with
  | .ok raw => .ok (parseResponse J raw)
  | .error m => .error ("Failed to extract data: " ++ m)

/-- Everything inside the `try` of `process_document`: the `.pdf`
branch (`_process_pdf`, which never lets an exception escape) or the
direct `extract_patient_data` call (which re-raises service failures as
an `HTTPException`).  `.error m` is an exception reaching the facade's
`except`. -/
def processDocumentBody (J : String → Option Record) (filename : String)
    (env : FileEnv) : Except String Record :=
  if pyEndsWith (lowerStr filename) ".pdf" then
    .ok (processPdf J env.doc env.textResp)
  else
    extractPatientData J filename env.textResp env.visionResp

/-- `DocumentProcessor.process_document`: the facade catches every
exception escaping its body and converts it to the standard fallback
record with a `"Document processing error: ..."` note.  The function is
total — no input makes it propagate an error. -/
def processDocument (J : String → Option Record) (filename : String)
    (env : FileEnv) : Record :=
  match processDocumentBody J filename env with
  | .ok r => r
  | .error m => fallbackResult ("Document processing error: " ++ m)

/-! ### Association-list (Python dict) lemmas -/

theorem lookup_append (k : String) (l1 l2 : Record) :
    List.lookup k (l1 ++ l2) =
      match List.lookup k l1 with
      | some v => some v
      | none => List.lookup k l2 := by
  induction l1 with
  | nil => simp
  | cons a l ih =>
    obtain ⟨k', v'⟩ := a
    simp only [List.cons_append, List.lookup]
    cases h : (k == k') <;> simp [ih]

theorem lookup_ensureStep_of_some (d : Record) (f k : String) (v : String)
    (h : List.lookup k d = some v) :
    List.lookup k (ensureStep d f) = some v := by
  unfold ensureStep
  split
  · exact h
  · rw [lookup_append, h]

theorem lookup_foldl_ensure_of_some (fs : List String) (d : Record)
    (k v : String) (h : List.lookup k d = some v) :
    List.lookup k (fs.foldl ensureStep d) = some v := by
  induction fs generalizing d with
  | nil => exact h
  | cons f fs ih => exact ih _ (lookup_ensureStep_of_some d f k v h)

theorem lookup_foldl_ensure_of_none (fs : List String) (d : Record)
    (k : String) (hk : k ∉ fs) (h : List.lookup k d = none) :
    List.lookup k (fs.foldl ensureStep d) = none := by
  induction fs generalizing d with
  | nil => exact h
  | cons f fs ih =>
    have hne : k ≠ f := fun he => hk (he ▸ List.mem_cons_self f fs)
    have hstep : List.lookup k (ensureStep d f) = none := by
      unfold ensureStep
      split
      · exact h
      · rw [lookup_append, h]
        have hb : (k == f) = false := beq_eq_false_iff_ne.mpr hne
        simp [List.lookup, hb]
    exact ih _ (fun hm => hk (List.mem_cons_of_mem f hm)) hstep

theorem lookup_foldl_ensure_mem (fs : List String) (d : Record)
    (f : String) (hf : f ∈ fs) (h : List.lookup f d = none) :
    List.lookup f (fs.foldl ensureStep d) = some "Not Found" := by
  induction fs generalizing d with
  | nil => cases hf
  | cons g fs ih =>
    by_cases hfg : f = g
    · subst hfg
      have hstep : List.lookup f (ensureStep d f) = some "Not Found" := by
        unfold ensureStep
        rw [h]
        simp only [Option.isSome_none, Bool.false_eq_true, if_false]
        rw [lookup_append, h]
        simp [List.lookup]
      exact lookup_foldl_ensure_of_some fs _ f _ hstep
    · have hmem : f ∈ fs := by
        rcases List.mem_cons.mp hf with h' | h'
        · exact absurd h' hfg
        · exact h'
      have hstep : List.lookup f (ensureStep d g) = none := by
        unfold ensureStep
        split
        · exact h
        · rw [lookup_append, h]
          have hb : (f == g) = false := beq_eq_false_iff_ne.mpr hfg
          simp [List.lookup, hb]
      exact ih _ hmem hstep

/-! ### Completeness-scorer lemmas -/

/-- The field test of `_calculate_completeness_score`, as a predicate:
the value is neither the sentinel nor empty after stripping. -/
def fieldFilled (r : Record) (f : String) : Prop :=
  dictGet r f "Not Found" ≠ "Not Found" ∧ pyStrip (dictGet r f "Not Found") ≠ ""

instance (r : Record) (f : String) : Decidable (fieldFilled r f) := by
  unfold fieldFilled
  infer_instance

theorem score_eq_countP (r : Record) :
    calculateCompletenessScore r =
      requiredFields.countP (fun f => decide (fieldFilled r f)) := by
  unfold calculateCompletenessScore requiredFields fieldFilled
  simp only [List.foldl, List.countP, List.countP.go]
  by_cases h1 : fieldFilled r "patient_first_name" <;>
    by_cases h2 : fieldFilled r "patient_last_name" <;>
      by_cases h3 : fieldFilled r "patient_dob" <;>
        unfold fieldFilled at h1 h2 h3 <;>
          simp [h1, h2, h3]

theorem score_le_three (r : Record) : calculateCompletenessScore r ≤ 3 := by
  rw [score_eq_countP]
  have := List.countP_le_length (l := requiredFields)
      (p := fun f => decide (fieldFilled r f))
  simpa [requiredFields] using this

theorem isGood_iff (r : Record) :
    isGoodResult r = true ↔
      (calculateCompletenessScore r = 3 ∨
        (2 ≤ calculateCompletenessScore r ∧
          dictGet r "confidence" "low" = "high")) := by
  have hle := score_le_three r
  simp only [isGoodResult]
  split_ifs with h h3
  · simp only [true_iff]
    exact Or.inr h
  · simp only [true_iff]
    exact Or.inl (le_antisymm hle h3)
  · simp only [Bool.false_eq_true, false_iff]
    rintro (h' | h')
    · exact h3 (le_of_eq h'.symm)
    · exact h h'

/-! ### Claim theorems: response parser and scorer -/

/-- C2: whenever the raw AI response has no JSON-object-shaped substring
(greedy match from the first brace-open to the last brace-close), or the
matched substring fails strict JSON decoding, the parser returns the
degraded record with all three required fields `"Not Found"`, confidence
`"low"`, and notes `"Used fallback parsing method"`.  The fallback path
is a total constant function, so it never raises. -/
theorem c2_fallback_on_unparseable (J : String → Option Record) (s : String)
    (h : jsonSubstring s = none ∨
      ∃ t, jsonSubstring s = some t ∧ J t = none) :
    parseResponse J s =
      [("patient_first_name", "Not Found"),
       ("patient_last_name", "Not Found"),
       ("patient_dob", "Not Found"),
       ("confidence", "low"),
       ("notes", "Used fallback parsing method")] := by
  rcases h with h | ⟨t, ht, hJ⟩
  · simp [parseResponse, h, fallbackParsing]
  · simp [parseResponse, ht, hJ, fallbackParsing]

/-- Witness for C2 at the concrete brace-free response `"no json"` with
a decoder that always fails. -/
theorem c2_fallback_on_unparseable_witness :
    parseResponse (fun _ => none) "no json" =
      [("patient_first_name", "Not Found"),
       ("patient_last_name", "Not Found"),
       ("patient_dob", "Not Found"),
       ("confidence", "low"),
       ("notes", "Used fallback parsing method")] :=
  c2_fallback_on_unparseable (fun _ => none) "no json" (Or.inl (by decide))

/-- C3: whenever the JSON-shaped substring of the response decodes to an
object, the parsed record has all three required keys, any required key
absent from the decoded object is set to `"Not Found"`, and every key
present in the decoded object keeps its value unchanged. -/
theorem c3_required_keys_defaulted (J : String → Option Record)
    (s t : String) (data : Record)
    (ht : jsonSubstring s = some t) (hJ : J t = some data) :
    (∀ f ∈ requiredFields, (List.lookup f (parseResponse J s)).isSome) ∧
    (∀ f ∈ requiredFields, List.lookup f data = none →
      List.lookup f (parseResponse J s) = some "Not Found") ∧
    (∀ k v, List.lookup k data = some v →
      List.lookup k (parseResponse J s) = some v) := by
  have hp : parseResponse J s = ensureRequired data := by
    simp [parseResponse, ht, hJ]
  rw [hp]
  unfold ensureRequired
  refine ⟨?_, ?_, ?_⟩
  · intro f hf
    cases hd : List.lookup f data with
    | some v =>
      rw [lookup_foldl_ensure_of_some requiredFields data f v hd]
      rfl
    | none =>
      rw [lookup_foldl_ensure_mem requiredFields data f hf hd]
      rfl
  · intro f hf hd
    exact lookup_foldl_ensure_mem requiredFields data f hf hd
  · intro k v hk
    exact lookup_foldl_ensure_of_some requiredFields data k v hk

/-- Witness for C3 at a concrete response whose decoded object holds a
first name and an extra key but lacks the other two required fields. -/
theorem c3_required_keys_defaulted_witness :
    (∀ f ∈ requiredFields,
      (List.lookup f (parseResponse
        (fun _ => some [("patient_first_name", "Jane"), ("extra", "x")])
        "{j}")).isSome) ∧
    (∀ f ∈ requiredFields,
      List.lookup f [("patient_first_name", "Jane"), ("extra", "x")] = none →
      List.lookup f (parseResponse
        (fun _ => some [("patient_first_name", "Jane"), ("extra", "x")])
        "{j}") = some "Not Found") ∧
    (∀ k v,
      List.lookup k [("patient_first_name", "Jane"), ("extra", "x")] = some v →
      List.lookup k (parseResponse
        (fun _ => some [("patient_first_name", "Jane"), ("extra", "x")])
        "{j}") = some v) :=
  c3_required_keys_defaulted
    (fun _ => some [("patient_first_name", "Jane"), ("extra", "x")])
    "{j}" "{j}" [("patient_first_name", "Jane"), ("extra", "x")]
    (by decide) rfl

/-- C4: the completeness score counts exactly the required fields whose
value is neither `"Not Found"` nor empty after stripping, is bounded by
3, is 0 on the all-`"Not Found"` record, and `_is_good_result` holds
precisely for a full score or for a score of at least 2 with high
confidence — in particular never for score 2 with medium confidence. -/
theorem c4_score_and_early_stop (r : Record) :
    calculateCompletenessScore r =
      (requiredFields.filter (fun f => decide (fieldFilled r f))).length ∧
    calculateCompletenessScore r ≤ 3 ∧
    calculateCompletenessScore
      [("patient_first_name", "Not Found"),
       ("patient_last_name", "Not Found"),
       ("patient_dob", "Not Found")] = 0 ∧
    (isGoodResult r = true ↔
      (calculateCompletenessScore r = 3 ∨
        (2 ≤ calculateCompletenessScore r ∧
          dictGet r "confidence" "low" = "high"))) ∧
    (calculateCompletenessScore r = 2 →
      dictGet r "confidence" "low" = "medium" →
      isGoodResult r = false) := by
  refine ⟨?_, score_le_three r, by decide, isGood_iff r, ?_⟩
  · rw [score_eq_countP, List.countP_eq_length_filter]
  · intro h2 hmed
    rw [← Bool.not_eq_true]
    intro hg
    rcases (isGood_iff r).mp hg with h3 | ⟨_, hhigh⟩
    · rw [h2] at h3
      exact absurd h3 (by decide)
    · rw [hmed] at hhigh
      exact absurd hhigh (by decide)

/-- Witness for C4 at a record with two filled fields and medium
confidence: its score is 2 and it is not good. -/
theorem c4_score_and_early_stop_witness :
    isGoodResult
      [("patient_first_name", "Jane"), ("patient_last_name", "Doe"),
       ("patient_dob", "Not Found"), ("confidence", "medium")] = false :=
  (c4_score_and_early_stop
      [("patient_first_name", "Jane"), ("patient_last_name", "Doe"),
       ("patient_dob", "Not Found"), ("confidence", "medium")]).2.2.2.2
    (by decide) (by decide)

/-- C10: a successful strict parse of an object lacking `"confidence"`
or `"notes"` leaves those keys absent (only the required patient fields
are defaulted), and the early-stop predicate reads a missing
`"confidence"` key as `"low"`, so a record scoring 2 with no confidence
key is never good. -/
theorem c10_missing_optional_keys (J : String → Option Record)
    (s t : String) (data : Record)
    (ht : jsonSubstring s = some t) (hJ : J t = some data) :
    (List.lookup "confidence" data = none →
      List.lookup "confidence" (parseResponse J s) = none) ∧
    (List.lookup "notes" data = none →
      List.lookup "notes" (parseResponse J s) = none) ∧
    (∀ r : Record, List.lookup "confidence" r = none →
      calculateCompletenessScore r = 2 → isGoodResult r = false) := by
  have hp : parseResponse J s = ensureRequired data := by
    simp [parseResponse, ht, hJ]
  refine ⟨?_, ?_, ?_⟩
  · intro hc
    rw [hp]
    exact lookup_foldl_ensure_of_none requiredFields data "confidence"
      (by decide) hc
  · intro hn
    rw [hp]
    exact lookup_foldl_ensure_of_none requiredFields data "notes"
      (by decide) hn
  · intro r hc h2
    have hlow : dictGet r "confidence" "low" = "low" := by
      unfold dictGet
      rw [hc]
      rfl
    rw [← Bool.not_eq_true]
    intro hg
    rcases (isGood_iff r).mp hg with h3 | ⟨_, hhigh⟩
    · rw [h2] at h3
      exact absurd h3 (by decide)
    · rw [hlow] at hhigh
      exact absurd hhigh (by decide)

/-- Witness for C10 at a concrete response decoding to a two-field
object with no confidence or notes keys. -/
theorem c10_missing_optional_keys_witness :
    List.lookup "confidence"
      (parseResponse
        (fun _ => some [("patient_first_name", "Jane"),
                        ("patient_last_name", "Doe")]) "{j}") = none ∧
    List.lookup "notes"
      (parseResponse
        (fun _ => some [("patient_first_name", "Jane"),
                        ("patient_last_name", "Doe")]) "{j}") = none ∧
    isGoodResult
      [("patient_first_name", "Jane"), ("patient_last_name", "Doe"),
       ("patient_dob", "Not Found")] = false := by
  have h := c10_missing_optional_keys
    (fun _ => some [("patient_first_name", "Jane"),
                    ("patient_last_name", "Doe")])
    "{j}" "{j}" [("patient_first_name", "Jane"), ("patient_last_name", "Doe")]
    (by decide) rfl
  exact ⟨h.1 (by decide), h.2.1 (by decide),
    h.2.2 _ (by decide) (by decide)⟩

/-! ### Combine lemmas -/

theorem pickBest_spec (rs : List Record) (b : Record) :
    ∃ i, i < (b :: rs).length ∧
      pickBest b rs = (b :: rs).getD i [] ∧
      (∀ j, j < (b :: rs).length →
        calculateCompletenessScore ((b :: rs).getD j []) ≤
          calculateCompletenessScore (pickBest b rs)) ∧
      (∀ j, j < i →
        calculateCompletenessScore ((b :: rs).getD j []) <
          calculateCompletenessScore (pickBest b rs)) := by
  induction rs generalizing b with
  | nil =>
    refine ⟨0, by simp, rfl, ?_, ?_⟩
    · intro j hj
      simp only [List.length_cons, List.length_nil] at hj
      have hj0 : j = 0 := by omega
      subst hj0
      simp [pickBest]
    · intro j hj
      omega
  | cons r rs ih =>
    by_cases hlt :
        calculateCompletenessScore b < calculateCompletenessScore r
    · have hpb : pickBest b (r :: rs) = pickBest r rs := by
        simp [pickBest, hlt]
      obtain ⟨i, hi, heq, hmax, hstrict⟩ := ih r
      refine ⟨i + 1, by simpa using hi, by simpa [hpb] using heq, ?_, ?_⟩
      · intro j hj
        rw [hpb]
        match j with
        | 0 =>
          simp only [List.getD_cons_zero]
          have hr := hmax 0 (by simp)
          simp only [List.getD_cons_zero] at hr
          omega
        | j + 1 =>
          simp only [List.getD_cons_succ]
          exact hmax j (by simpa using hj)
      · intro j hj
        rw [hpb]
        match j with
        | 0 =>
          simp only [List.getD_cons_zero]
          have hr := hmax 0 (by simp)
          simp only [List.getD_cons_zero] at hr
          omega
        | j + 1 =>
          simp only [List.getD_cons_succ]
          exact hstrict j (by omega)
    · have hpb : pickBest b (r :: rs) = pickBest b rs := by
        simp [pickBest, hlt]
      obtain ⟨i, hi, heq, hmax, hstrict⟩ := ih b
      match i, hi with
      | 0, _ =>
        simp only [List.getD_cons_zero] at heq
        refine ⟨0, by simp, by simpa [hpb] using heq, ?_, ?_⟩
        · intro j hj
          rw [hpb]
          match j with
          | 0 =>
            simp only [List.getD_cons_zero]
            exact hmax 0 (by simp)
          | 1 =>
            simp only [List.getD_cons_succ, List.getD_cons_zero]
            have hb := hmax 0 (by simp)
            simp only [List.getD_cons_zero] at hb
            omega
          | j + 2 =>
            simp only [List.getD_cons_succ]
            exact hmax (j + 1) (by simpa using hj)
        · intro j hj
          omega
      | k + 1, hi =>
        have hbst := hstrict 0 (by omega)
        simp only [List.getD_cons_zero] at hbst
        refine ⟨k + 2, by simpa using hi, ?_, ?_, ?_⟩
        · simp only [List.getD_cons_succ]
          simpa [hpb] using heq
        · intro j hj
          rw [hpb]
          match j with
          | 0 =>
            simp only [List.getD_cons_zero]
            exact hmax 0 (by simp)
          | 1 =>
            simp only [List.getD_cons_succ, List.getD_cons_zero]
            omega
          | j + 2 =>
            simp only [List.getD_cons_succ]
            exact hmax (j + 1) (by simpa using hj)
        · intro j hj
          rw [hpb]
          match j with
          | 0 =>
            simp only [List.getD_cons_zero]
            omega
          | 1 =>
            simp only [List.getD_cons_succ, List.getD_cons_zero]
            omega
          | j + 2 =>
            simp only [List.getD_cons_succ]
            exact hstrict (j + 1) (by omega)

/-- C5: `_combine_results` returns the highest-scoring record with the
earliest record winning ties; with more than one input the winner's
notes field becomes `"Processed N pages. "` followed by its original
note; and the empty list yields the all-`"Not Found"`, low-confidence
record noted `"No data extracted from any page"`. -/
theorem c5_combine_best_record (rs : List Record) :
    combineResults [] =
      [("patient_first_name", "Not Found"),
       ("patient_last_name", "Not Found"),
       ("patient_dob", "Not Found"),
       ("confidence", "low"),
       ("notes", "No data extracted from any page")] ∧
    (rs ≠ [] →
      ∃ i, i < rs.length ∧
        (∀ j, j < rs.length →
          calculateCompletenessScore (rs.getD j []) ≤
            calculateCompletenessScore (rs.getD i [])) ∧
        (∀ j, j < i →
          calculateCompletenessScore (rs.getD j []) <
            calculateCompletenessScore (rs.getD i [])) ∧
        combineResults rs =
          (if rs.length > 1 then
            dictSet (rs.getD i []) "notes"
              ("Processed " ++ toString rs.length ++ " pages. " ++
                dictGet (rs.getD i []) "notes" "")
          else rs.getD i [])) := by
  refine ⟨rfl, ?_⟩
  intro hne
  cases rs with
  | nil => exact absurd rfl hne
  | cons r0 rest =>
    obtain ⟨i, hi, heq, hmax, hstrict⟩ := pickBest_spec rest r0
    refine ⟨i, hi, ?_, ?_, ?_⟩
    · intro j hj
      have h := hmax j hj
      rwa [heq] at h
    · intro j hj
      have h := hstrict j hj
      rwa [heq] at h
    · have hdef : combineResults (r0 :: rest) =
          (if (r0 :: rest).length > 1 then
            dictSet (pickBest r0 rest) "notes"
              ("Processed " ++ toString (r0 :: rest).length ++ " pages. " ++
                dictGet (pickBest r0 rest) "notes" "")
          else pickBest r0 rest) := rfl
      rw [hdef, heq]

/-- Witness for C5 at the spec's example pair (scores 1 and 3): the
second record wins and its note gains the `"Processed 2 pages. "`
front matter. -/
theorem c5_combine_best_record_witness :
    (∃ i,
      i < ([[("patient_first_name", "John")],
            [("patient_first_name", "A"), ("patient_last_name", "B"),
             ("patient_dob", "C"), ("notes", "n")]] : List Record).length ∧
      (∀ j, j < ([[("patient_first_name", "John")],
            [("patient_first_name", "A"), ("patient_last_name", "B"),
             ("patient_dob", "C"), ("notes", "n")]] : List Record).length →
        calculateCompletenessScore
          (([[("patient_first_name", "John")],
            [("patient_first_name", "A"), ("patient_last_name", "B"),
             ("patient_dob", "C"), ("notes", "n")]] : List Record).getD j []) ≤
          calculateCompletenessScore
            (([[("patient_first_name", "John")],
              [("patient_first_name", "A"), ("patient_last_name", "B"),
               ("patient_dob", "C"), ("notes", "n")]] : List Record).getD i [])) ∧
      (∀ j, j < i →
        calculateCompletenessScore
          (([[("patient_first_name", "John")],
            [("patient_first_name", "A"), ("patient_last_name", "B"),
             ("patient_dob", "C"), ("notes", "n")]] : List Record).getD j []) <
          calculateCompletenessScore
            (([[("patient_first_name", "John")],
              [("patient_first_name", "A"), ("patient_last_name", "B"),
               ("patient_dob", "C"), ("notes", "n")]] : List Record).getD i [])) ∧
      combineResults
          [[("patient_first_name", "John")],
           [("patient_first_name", "A"), ("patient_last_name", "B"),
            ("patient_dob", "C"), ("notes", "n")]] =
        (if ([[("patient_first_name", "John")],
              [("patient_first_name", "A"), ("patient_last_name", "B"),
               ("patient_dob", "C"), ("notes", "n")]] : List Record).length > 1
         then
          dictSet
            (([[("patient_first_name", "John")],
              [("patient_first_name", "A"), ("patient_last_name", "B"),
               ("patient_dob", "C"), ("notes", "n")]] : List Record).getD i [])
            "notes"
            ("Processed " ++
              toString ([[("patient_first_name", "John")],
                [("patient_first_name", "A"), ("patient_last_name", "B"),
                 ("patient_dob", "C"), ("notes", "n")]] : List Record).length ++
              " pages. " ++
              dictGet
                (([[("patient_first_name", "John")],
                  [("patient_first_name", "A"), ("patient_last_name", "B"),
                   ("patient_dob", "C"), ("notes", "n")]] : List Record).getD i [])
                "notes" "")
         else
          ([[("patient_first_name", "John")],
            [("patient_first_name", "A"), ("patient_last_name", "B"),
             ("patient_dob", "C"), ("notes", "n")]] : List Record).getD i [])) ∧
    combineResults
        [[("patient_first_name", "John")],
         [("patient_first_name", "A"), ("patient_last_name", "B"),
          ("patient_dob", "C"), ("notes", "n")]] =
      [("patient_first_name", "A"), ("patient_last_name", "B"),
       ("patient_dob", "C"), ("notes", "Processed 2 pages. n")] :=
  ⟨(c5_combine_best_record
      [[("patient_first_name", "John")],
       [("patient_first_name", "A"), ("patient_last_name", "B"),
        ("patient_dob", "C"), ("notes", "n")]]).2 (by decide),
    by decide⟩

/-! ### Parallel-orchestrator lemmas -/

theorem scanResults_append (l1 l2 : List (Option Record)) (acc : List Record) :
    scanResults acc (l1 ++ l2) =
      match scanResults acc l1 with
      | (a, some r) => (a, some r)
      | (a, none) => scanResults a l2 := by
  induction l1 generalizing acc with
  | nil => simp [scanResults]
  | cons o l ih =>
    cases o with
    | none =>
      simp only [List.cons_append, scanResults]
      exact ih acc
    | some r =>
      simp only [List.cons_append, scanResults]
      cases hg : isGoodResult r with
      | true => simp
      | false =>
        simp only [Bool.false_eq_true, if_false]
        exact ih (acc ++ [r])

theorem scanResults_no_good (l : List (Option Record)) (acc : List Record)
    (h : ∀ x ∈ l.filterMap id, isGoodResult x = false) :
    scanResults acc l = (acc ++ l.filterMap id, none) := by
  induction l generalizing acc with
  | nil => simp [scanResults]
  | cons o l ih =>
    cases o with
    | none =>
      simp only [scanResults, List.filterMap_cons_none]
      exact ih acc fun x hx => h x (by simpa using hx)
    | some r =>
      have hr : isGoodResult r = false := h r (by simp)
      simp only [scanResults, hr, Bool.false_eq_true, if_false,
        List.filterMap_cons_some]
      rw [ih (acc ++ [r]) fun x hx => h x (by
        have hc : List.filterMap id (some r :: l) =
            r :: List.filterMap id l := by simp
        rw [hc]
        exact List.mem_cons_of_mem _ hx)]
      simp

theorem runBatches_eq_scan_aux (n : Nat) :
    ∀ (outcomes : List (Option Record)), outcomes.length ≤ n →
      ∀ acc, runBatches acc outcomes =
        (match scanResults acc outcomes with
         | (_, some r) => some r
         | (a, none) => if a.isEmpty then none else some (combineResults a)) := by
  induction n with
  | zero =>
    intro outcomes h acc
    have : outcomes = [] := List.eq_nil_of_length_eq_zero (by omega)
    subst this
    simp [runBatches, scanResults]
  | succ n ih =>
    intro outcomes h acc
    match outcomes with
    | [] => simp [runBatches, scanResults]
    | o :: rest =>
      rw [runBatches]
      have hsplit : o :: rest =
          List.take 2 (o :: rest) ++ List.drop 2 (o :: rest) :=
        (List.take_append_drop 2 _).symm
      conv_rhs => rw [hsplit]
      rw [scanResults_append]
      cases hscan : scanResults acc (List.take 2 (o :: rest)) with
      | mk a res =>
        cases res with
        | some r => simp
        | none =>
          simp only []
          exact ih (List.drop 2 (o :: rest))
            (by simp only [List.length_drop, List.length_cons] at h ⊢; omega) a

theorem runBatches_eq_scan (outcomes : List (Option Record))
    (acc : List Record) :
    runBatches acc outcomes =
      (match scanResults acc outcomes with
       | (_, some r) => some r
       | (a, none) => if a.isEmpty then none else some (combineResults a)) :=
  runBatches_eq_scan_aux outcomes.length outcomes le_rfl acc

/-- The early-stop behaviour of `_extract_from_images_parallel`: if no
result collected before position `p` is good and the task at `p`
returns a good record `r`, the orchestration stops there and returns
the combination of everything collected so far. -/
theorem parallel_first_good (pre rest : List (Option Record)) (r : Record)
    (hpre : ∀ x ∈ pre.filterMap id, isGoodResult x = false)
    (hr : isGoodResult r = true) :
    extractFromImagesParallel (pre ++ some r :: rest) =
      some (combineResults (pre.filterMap id ++ [r])) := by
  unfold extractFromImagesParallel
  rw [runBatches_eq_scan, scanResults_append, scanResults_no_good pre [] hpre]
  simp [scanResults, hr]

/-- C6: in the image path, as soon as a collected per-page result is
good, the parallel orchestrator returns the combination of everything
collected so far, and the outcomes of all later pages (in particular
every later batch) have no influence on the returned value — they are
never consulted. -/
theorem c6_image_path_early_stop (pre rest rest2 : List (Option Record))
    (r : Record)
    (hpre : ∀ x ∈ pre.filterMap id, isGoodResult x = false)
    (hr : isGoodResult r = true) :
    extractFromImagesParallel (pre ++ some r :: rest) =
      some (combineResults (pre.filterMap id ++ [r])) ∧
    extractFromImagesParallel (pre ++ some r :: rest) =
      extractFromImagesParallel (pre ++ some r :: rest2) := by
  refine ⟨parallel_first_good pre rest r hpre hr, ?_⟩
  rw [parallel_first_good pre rest r hpre hr,
    parallel_first_good pre rest2 r hpre hr]

/-- Witness for C6 at the spec's 3-page document: page 1 scores 1,
page 2 scores 2 with medium confidence (so the orchestrator does not
stop there), page 3 scores 3 — the run stops at page 3 and returns
page 3's record (with the combined-pages note). -/
theorem c6_image_path_early_stop_witness :
    isGoodResult
      [("patient_first_name", "A"), ("patient_last_name", "B"),
       ("confidence", "medium")] = false ∧
    isGoodResult
      [("patient_first_name", "X"), ("patient_last_name", "Y"),
       ("patient_dob", "Z"), ("confidence", "high")] = true ∧
    extractFromImagesParallel
      [some [("patient_first_name", "P1")],
       some [("patient_first_name", "A"), ("patient_last_name", "B"),
             ("confidence", "medium")],
       some [("patient_first_name", "X"), ("patient_last_name", "Y"),
             ("patient_dob", "Z"), ("confidence", "high")]] =
      some (combineResults
        [[("patient_first_name", "P1")],
         [("patient_first_name", "A"), ("patient_last_name", "B"),
          ("confidence", "medium")],
         [("patient_first_name", "X"), ("patient_last_name", "Y"),
          ("patient_dob", "Z"), ("confidence", "high")]]) ∧
    combineResults
        [[("patient_first_name", "P1")],
         [("patient_first_name", "A"), ("patient_last_name", "B"),
          ("confidence", "medium")],
         [("patient_first_name", "X"), ("patient_last_name", "Y"),
          ("patient_dob", "Z"), ("confidence", "high")]] =
      [("patient_first_name", "X"), ("patient_last_name", "Y"),
       ("patient_dob", "Z"), ("confidence", "high"),
       ("notes", "Processed 3 pages. ")] :=
  ⟨by decide, by decide,
    (c6_image_path_early_stop
      [some [("patient_first_name", "P1")],
       some [("patient_first_name", "A"), ("patient_last_name", "B"),
             ("confidence", "medium")]]
      [] []
      [("patient_first_name", "X"), ("patient_last_name", "Y"),
       ("patient_dob", "Z"), ("confidence", "high")]
      (by decide) (by decide)).1,
    by decide⟩

/-! ### Sequential-path lemmas -/

theorem seqLoop_first_good (pre rest : List (Option Record))
    (acc : List Record) (r : Record)
    (hpre : ∀ x ∈ pre.filterMap id, isGoodResult x = false)
    (hr : isGoodResult r = true) :
    seqLoop acc (pre ++ some r :: rest) = acc ++ pre.filterMap id ++ [r] := by
  induction pre generalizing acc with
  | nil => simp [seqLoop, hr]
  | cons o pre ih =>
    cases o with
    | none =>
      simp only [List.cons_append, seqLoop, List.filterMap_cons_none]
      exact ih acc fun x hx => hpre x (by simpa using hx)
    | some x =>
      have hx : isGoodResult x = false := hpre x (by simp)
      simp only [List.cons_append, seqLoop, hx, Bool.false_eq_true, if_false,
        List.filterMap_cons_some, id_eq, List.append_eq]
      rw [ih (acc ++ [x]) fun y hy => hpre y (by
        have hc : List.filterMap id (some x :: pre) =
            x :: List.filterMap id pre := by simp
        rw [hc]
        exact List.mem_cons_of_mem _ hy)]
      simp

/-! ### Non-emptiness of produced records -/

theorem dictSet_ne_nil (r : Record) (k v : String) : dictSet r k v ≠ [] := by
  unfold dictSet
  split
  · rename_i h
    intro hmap
    rw [List.map_eq_nil_iff] at hmap
    subst hmap
    simp [List.lookup] at h
  · simp

theorem combineResults_ne_nil (L : List Record) (hL : L ≠ [])
    (hall : ∀ x ∈ L, x ≠ []) : combineResults L ≠ [] := by
  cases L with
  | nil => exact absurd rfl hL
  | cons r0 rest =>
    have hdef : combineResults (r0 :: rest) =
        (if (r0 :: rest).length > 1 then
          dictSet (pickBest r0 rest) "notes"
            ("Processed " ++ toString (r0 :: rest).length ++ " pages. " ++
              dictGet (pickBest r0 rest) "notes" "")
        else pickBest r0 rest) := rfl
    rw [hdef]
    split
    · exact dictSet_ne_nil _ _ _
    · obtain ⟨i, hi, heq, -, -⟩ := pickBest_spec rest r0
      rw [heq, List.getD_eq_getElem _ _ hi]
      exact hall _ (List.getElem_mem _)

theorem scanResults_inv (l : List (Option Record)) (acc : List Record) :
    ∃ ps : List Record, (scanResults acc l).1 = acc ++ ps ∧
      (∀ x ∈ ps, x ∈ l.filterMap id) ∧
      (∀ r, (scanResults acc l).2 = some r →
        r = combineResults ((scanResults acc l).1) ∧ ps ≠ []) := by
  induction l generalizing acc with
  | nil =>
    exact ⟨[], by simp [scanResults], by simp, by simp [scanResults]⟩
  | cons o l ih =>
    cases o with
    | none =>
      obtain ⟨ps, h1, h2, h3⟩ := ih acc
      exact ⟨ps, by simpa [scanResults] using h1,
        fun x hx => by simpa using h2 x hx,
        by simpa [scanResults] using h3⟩
    | some r =>
      cases hg : isGoodResult r with
      | true =>
        refine ⟨[r], by simp [scanResults, hg], by simp, ?_⟩
        intro r' hr'
        simp only [scanResults, hg, if_true] at hr' ⊢
        exact ⟨by simpa using hr'.symm, by simp⟩
      | false =>
        obtain ⟨ps, h1, h2, h3⟩ := ih (acc ++ [r])
        have hsc : scanResults acc (some r :: l) =
            scanResults (acc ++ [r]) l := by
          simp [scanResults, hg]
        refine ⟨r :: ps, ?_, ?_, ?_⟩
        · rw [hsc, h1]
          simp
        · intro x hx
          rcases List.mem_cons.mp hx with hx | hx
          · simp [hx]
          · have := h2 x hx
            have hc : List.filterMap id (some r :: l) =
                r :: List.filterMap id l := by simp
            rw [hc]
            exact List.mem_cons_of_mem _ this
        · intro r' hr'
          rw [hsc] at hr' ⊢
          exact ⟨(h3 r' hr').1, by simp⟩

theorem runBatches_some_aux (n : Nat) :
    ∀ outcomes : List (Option Record), outcomes.length ≤ n →
      ∀ (acc : List Record) (r : Record), runBatches acc outcomes = some r →
        ∃ L : List Record, L ≠ [] ∧
          (∀ x ∈ L, x ∈ acc ∨ x ∈ outcomes.filterMap id) ∧
          r = combineResults L := by
  induction n with
  | zero =>
    intro outcomes h acc r hr
    have : outcomes = [] := List.eq_nil_of_length_eq_zero (by omega)
    subst this
    rw [runBatches] at hr
    split at hr
    · cases hr
    · rename_i hne
      exact ⟨acc, by simpa using hne, fun x hx => Or.inl hx, by
        simpa using hr.symm⟩
  | succ n ih =>
    intro outcomes h acc r hr
    match outcomes with
    | [] =>
      rw [runBatches] at hr
      split at hr
      · cases hr
      · rename_i hne
        exact ⟨acc, by simpa using hne, fun x hx => Or.inl hx, by
          simpa using hr.symm⟩
    | o :: rest =>
      rw [runBatches] at hr
      have hmem_take : ∀ x, x ∈ (List.take 2 (o :: rest)).filterMap id →
          x ∈ (o :: rest).filterMap id := by
        intro x hx
        have : o :: rest = List.take 2 (o :: rest) ++ List.drop 2 (o :: rest) :=
          (List.take_append_drop 2 _).symm
        rw [this, List.filterMap_append]
        exact List.mem_append_left _ hx
      have hmem_drop : ∀ x, x ∈ (List.drop 2 (o :: rest)).filterMap id →
          x ∈ (o :: rest).filterMap id := by
        intro x hx
        have : o :: rest = List.take 2 (o :: rest) ++ List.drop 2 (o :: rest) :=
          (List.take_append_drop 2 _).symm
        rw [this, List.filterMap_append]
        exact List.mem_append_right _ hx
      obtain ⟨ps, hps1, hps2, hps3⟩ := scanResults_inv (List.take 2 (o :: rest)) acc
      cases hscan : scanResults acc (List.take 2 (o :: rest)) with
      | mk a res =>
        rw [hscan] at hr hps1 hps3
        cases res with
        | some r' =>
          simp only [] at hr
          obtain ⟨hcomb, hpsne⟩ := hps3 r' rfl
          refine ⟨a, ?_, ?_, ?_⟩
          · simp only [] at hps1
            rw [hps1]
            intro hcon
            exact hpsne (by
              rcases List.append_eq_nil.mp hcon with ⟨-, h2⟩
              exact h2)
          · intro x hx
            simp only [] at hps1
            rw [hps1] at hx
            rcases List.mem_append.mp hx with hx | hx
            · exact Or.inl hx
            · exact Or.inr (hmem_take x (hps2 x hx))
          · cases hr
            simpa using hcomb
        | none =>
          simp only [] at hr
          obtain ⟨L, hL1, hL2, hL3⟩ := ih (List.drop 2 (o :: rest))
            (by simp only [List.length_drop, List.length_cons] at h ⊢; omega)
            a r hr
          refine ⟨L, hL1, ?_, hL3⟩
          intro x hx
          rcases hL2 x hx with hx' | hx'
          · simp only [] at hps1
            rw [hps1] at hx'
            rcases List.mem_append.mp hx' with hx'' | hx''
            · exact Or.inl hx''
            · exact Or.inr (hmem_take x (hps2 x hx''))
          · exact Or.inr (hmem_drop x hx')

theorem parallel_some_ne_nil (images : List (Option Record))
    (hwf : ∀ x ∈ images.filterMap id, x ≠ []) (r : Record)
    (h : extractFromImagesParallel images = some r) : r ≠ [] := by
  obtain ⟨L, hL1, hL2, hL3⟩ :=
    runBatches_some_aux images.length images le_rfl [] r h
  rw [hL3]
  refine combineResults_ne_nil L hL1 fun x hx => ?_
  rcases hL2 x hx with hx' | hx'
  · cases hx'
  · exact hwf x hx'

/-! ### Claim C8: when the sequential fallback actually runs -/

/-- Counterexample to C8: on a one-page document whose single per-page
task raises, `_extract_from_images_parallel` completes normally — its
own catch-all means it cannot propagate an exception, and here it
returns the normal value `None` because nothing was collected — yet
`_extract_from_images` still falls through to the sequential pass, so
the sequential fallback is NOT triggered only by a parallel-path
raise. -/
theorem c8_sequential_counterexample :
    extractFromImagesParallel [none] = none ∧
    (extractFromImagesTraced [none]).2 = ImagesPath.sequentialFallback ∧
    (extractFromImagesTraced [none]).1 =
      fallbackResult "Failed to process any pages with Vision API" := by
  have hpar : extractFromImagesParallel [none] = none := by
    unfold extractFromImagesParallel
    rw [runBatches_eq_scan]
    decide
  have htr : extractFromImagesTraced [none] =
      (extractFromImagesSequential [none], ImagesPath.sequentialFallback) := by
    unfold extractFromImagesTraced
    rw [if_neg (by decide), hpar]
  refine ⟨hpar, ?_, ?_⟩
  · rw [htr]
  · rw [htr]
    decide

/-- C8 as amended: the sequential fallback runs exactly when the
parallel pass produces no result (`None` — the parallel callee also
converts its own internal errors to `None`, so this is the only
trigger); when it runs, the facade's record is the sequential pass's
record, computed from scratch one page at a time with the same
early-stop predicate — it stops at the first good result. -/
theorem c8_sequential_trigger (images : List (Option Record))
    (hne : images ≠ [])
    (hwf : ∀ x ∈ images.filterMap id, x ≠ []) :
    ((extractFromImagesTraced images).2 = ImagesPath.sequentialFallback ↔
      extractFromImagesParallel images = none) ∧
    (extractFromImagesParallel images = none →
      (extractFromImagesTraced images).1 = extractFromImagesSequential images) ∧
    (∀ pre rest (r : Record), images = pre ++ some r :: rest →
      (∀ x ∈ pre.filterMap id, isGoodResult x = false) →
      isGoodResult r = true →
      extractFromImagesSequential images =
        combineResults (pre.filterMap id ++ [r])) := by
  refine ⟨?_, ?_, ?_⟩
  · unfold extractFromImagesTraced
    rw [if_neg (by simpa using hne)]
    cases hpar : extractFromImagesParallel images with
    | some r =>
      have hrne : r ≠ [] := parallel_some_ne_nil images hwf r hpar
      have hie : List.isEmpty r = false := by
        cases r with
        | nil => exact absurd rfl hrne
        | cons a l => rfl
      simp [hie]
    | none => simp
  · intro hpar
    unfold extractFromImagesTraced
    rw [if_neg (by simpa using hne), hpar]
  · intro pre rest r heq hpre hr
    subst heq
    unfold extractFromImagesSequential
    rw [seqLoop_first_good pre rest [] r hpre hr]
    rw [if_neg (by simp)]
    simp

/-- Witness for the amended C8 at a two-page document: page 1's task
raises, page 2 returns a good record — the parallel pass already
collects it, and the decomposition conjunct applies to the good page. -/
theorem c8_sequential_trigger_witness :
    ((extractFromImagesTraced
        [none, some [("patient_first_name", "X"), ("patient_last_name", "Y"),
                     ("patient_dob", "Z"), ("confidence", "high")]]).2 =
        ImagesPath.sequentialFallback ↔
      extractFromImagesParallel
        [none, some [("patient_first_name", "X"), ("patient_last_name", "Y"),
                     ("patient_dob", "Z"), ("confidence", "high")]] = none) ∧
    (extractFromImagesParallel
        [none, some [("patient_first_name", "X"), ("patient_last_name", "Y"),
                     ("patient_dob", "Z"), ("confidence", "high")]] = none →
      (extractFromImagesTraced
        [none, some [("patient_first_name", "X"), ("patient_last_name", "Y"),
                     ("patient_dob", "Z"), ("confidence", "high")]]).1 =
        extractFromImagesSequential
          [none, some [("patient_first_name", "X"), ("patient_last_name", "Y"),
                       ("patient_dob", "Z"), ("confidence", "high")]]) ∧
    (∀ pre rest (r : Record),
      ([none, some [("patient_first_name", "X"), ("patient_last_name", "Y"),
                    ("patient_dob", "Z"), ("confidence", "high")]] :
          List (Option Record)) = pre ++ some r :: rest →
      (∀ x ∈ pre.filterMap id, isGoodResult x = false) →
      isGoodResult r = true →
      extractFromImagesSequential
          [none, some [("patient_first_name", "X"), ("patient_last_name", "Y"),
                       ("patient_dob", "Z"), ("confidence", "high")]] =
        combineResults (pre.filterMap id ++ [r])) :=
  c8_sequential_trigger
    [none, some [("patient_first_name", "X"), ("patient_last_name", "Y"),
                 ("patient_dob", "Z"), ("confidence", "high")]]
    (by decide) (by decide)

/-! ### Claim C9: the all-pages-render-failure note -/

/-- Counterexample to C9: a `.pdf` file with one page, an empty text
layer, and a renderer that fails on that page produces zero images, so
`_extract_from_images` returns the `_get_fallback_result` record for
`"No images could be extracted from PDF"` — its note is not the claimed
`"Failed to process any pages with Vision API"` (which, when it does
occur, is itself prefixed by `"Processing failed: "`). -/
theorem c9_render_failure_counterexample :
    processDocument (fun _ => none) "scan.pdf"
        ⟨.ok ⟨[⟨some "", none⟩]⟩, .ok "", .ok ""⟩ =
      fallbackResult "No images could be extracted from PDF" ∧
    dictGet (processDocument (fun _ => none) "scan.pdf"
        ⟨.ok ⟨[⟨some "", none⟩]⟩, .ok "", .ok ""⟩) "notes" "" =
      "Processing failed: No images could be extracted from PDF" ∧
    dictGet (processDocument (fun _ => none) "scan.pdf"
        ⟨.ok ⟨[⟨some "", none⟩]⟩, .ok "", .ok ""⟩) "notes" "" ≠
      "Failed to process any pages with Vision API" ∧
    dictGet (processDocument (fun _ => none) "scan.pdf"
        ⟨.ok ⟨[⟨some "", none⟩]⟩, .ok "", .ok ""⟩) "notes" "" ≠
      "Processing failed: Failed to process any pages with Vision API" := by
  refine ⟨by decide, by decide, by decide, by decide⟩

/-- C9 as amended: when the renderer fails on every page of a non-empty
PDF whose text layer is empty, the facade returns — without any
exception, the model being total — the fallback record for
`"No images could be extracted from PDF"`, whose note reads
`"Processing failed: No images could be extracted from PDF"` and whose
three patient fields are `"Not Found"` with confidence `"low"`. -/
theorem c9_render_failure_note (J : String → Option Record)
    (filename : String) (pages : List Page)
    (textResp visionResp : Except String String)
    (hpdf : pyEndsWith (lowerStr filename) ".pdf" = true)
    (hne : pages ≠ [])
    (himg : ∀ p ∈ pages, p.image = none)
    (htext : pyStrip (extractTextFromPdf pages) = "") :
    processDocument J filename ⟨.ok ⟨pages⟩, textResp, visionResp⟩ =
      fallbackResult "No images could be extracted from PDF" ∧
    dictGet (fallbackResult "No images could be extracted from PDF")
        "notes" "" =
      "Processing failed: No images could be extracted from PDF" ∧
    dictGet (fallbackResult "No images could be extracted from PDF")
        "patient_first_name" "" = "Not Found" ∧
    dictGet (fallbackResult "No images could be extracted from PDF")
        "patient_last_name" "" = "Not Found" ∧
    dictGet (fallbackResult "No images could be extracted from PDF")
        "patient_dob" "" = "Not Found" ∧
    dictGet (fallbackResult "No images could be extracted from PDF")
        "confidence" "" = "low" := by
  have himgs : convertPdfToImages pages = [] := by
    unfold convertPdfToImages
    rw [List.filterMap_eq_nil_iff]
    exact himg
  have hpp : processPdf J (.ok ⟨pages⟩) textResp =
      fallbackResult "No images could be extracted from PDF" := by
    simp only [processPdf]
    rw [if_neg (by simpa using fun h => hne (List.eq_nil_of_length_eq_zero h))]
    rw [if_neg (by simpa using htext)]
    rw [himgs]
    rfl
  refine ⟨?_, by decide, by decide, by decide, by decide, by decide⟩
  simp only [processDocument, processDocumentBody, hpdf, if_true]
  exact hpp

/-- Witness for the amended C9 at the concrete one-page document used
in the counterexample. -/
theorem c9_render_failure_note_witness :
    processDocument (fun _ => none) "a.PDF"
        ⟨.ok ⟨[⟨none, none⟩]⟩, .ok "", .error "e"⟩ =
      fallbackResult "No images could be extracted from PDF" ∧
    dictGet (fallbackResult "No images could be extracted from PDF")
        "notes" "" =
      "Processing failed: No images could be extracted from PDF" ∧
    dictGet (fallbackResult "No images could be extracted from PDF")
        "patient_first_name" "" = "Not Found" ∧
    dictGet (fallbackResult "No images could be extracted from PDF")
        "patient_last_name" "" = "Not Found" ∧
    dictGet (fallbackResult "No images could be extracted from PDF")
        "patient_dob" "" = "Not Found" ∧
    dictGet (fallbackResult "No images could be extracted from PDF")
        "confidence" "" = "low" :=
  c9_render_failure_note (fun _ => none) "a.PDF" [⟨none, none⟩]
    (.ok "") (.error "e") (by decide) (by decide)
    (by intro p hp; cases hp with
      | head => rfl
      | tail _ h => cases h)
    (by decide)

/-! ### Claim C7: the text path and its placeholder defect -/

/-- C7: for a PDF whose text layer is non-empty after stripping, the
pipeline takes the text path — one text-extraction call, parsed once
and returned directly, with no scoring or combination — but the chat
message `_extract_with_text` sends to the model is built from a local
placeholder and is the same for every document text, so the real
concatenated page text never reaches the AI service, contradicting the
claim's (and the spec's §9 intended) contract that the call's input is
the real text.  Evaluated at the failing input of a document whose text
layer holds real patient data. -/
theorem c7_text_path_placeholder (J : String → Option Record)
    (filename : String) (pages : List Page) (raw : String)
    (visionResp : Except String String)
    (hpdf : pyEndsWith (lowerStr filename) ".pdf" = true)
    (hne : pages ≠ [])
    (htext : pyStrip (extractTextFromPdf pages) ≠ "") :
    processDocument J filename ⟨.ok ⟨pages⟩, .ok raw, visionResp⟩ =
      parseResponse J raw ∧
    (∀ prompt t1 t2,
      extractWithTextMessage prompt t1 = extractWithTextMessage prompt t2) ∧
    (∀ prompt t, extractWithTextMessage prompt t =
      prompt ++ "\n\nDocument content: PDF content would be extracted here") ∧
    extractWithTextMessage "PROMPT" "John Smith DOB 1990-01-01" =
      "PROMPT\n\nDocument content: PDF content would be extracted here" := by
  refine ⟨?_, fun prompt t1 t2 => rfl, fun prompt t => ?_, rfl⟩
  · have hpp : processPdf J (.ok ⟨pages⟩) (.ok raw) = parseResponse J raw := by
      simp only [processPdf]
      rw [if_neg (by simpa using fun h => hne (List.eq_nil_of_length_eq_zero h))]
      rw [if_pos htext]
      rfl
    simp only [processDocument, processDocumentBody, hpdf, if_true]
    exact hpp
  · show prompt ++ "\n\nDocument content: " ++
        "PDF content would be extracted here" =
      prompt ++ "\n\nDocument content: PDF content would be extracted here"
    rw [String.append_assoc]
    congr 1

/-- Witness for C7 at a one-page PDF whose text layer is
`"John Smith DOB 1990-01-01"`. -/
theorem c7_text_path_placeholder_witness :
    processDocument (fun _ => none) "scan.pdf"
        ⟨.ok ⟨[⟨some "John Smith DOB 1990-01-01", none⟩]⟩,
         .ok "resp", .ok ""⟩ =
      parseResponse (fun _ => none) "resp" ∧
    (∀ prompt t1 t2,
      extractWithTextMessage prompt t1 = extractWithTextMessage prompt t2) ∧
    (∀ prompt t, extractWithTextMessage prompt t =
      prompt ++ "\n\nDocument content: PDF content would be extracted here") ∧
    extractWithTextMessage "PROMPT" "John Smith DOB 1990-01-01" =
      "PROMPT\n\nDocument content: PDF content would be extracted here" :=
  c7_text_path_placeholder (fun _ => none) "scan.pdf"
    [⟨some "John Smith DOB 1990-01-01", none⟩] "resp" (.ok "")
    (by decide) (by decide) (by decide)

/-! ### Claim C1: the facade boundary -/

/-- C1: `process_document` is modelled as a total function — every
modelled exception path is absorbed somewhere in the call tree — and
the facade's own catch turns any exception escaping its body into the
standard fallback record: three `"Not Found"` patient fields,
confidence `"low"`, and a note embedding the error description.  A body
that returns normally passes through unchanged. -/
theorem c1_facade_never_raises (J : String → Option Record)
    (filename : String) (env : FileEnv) :
    (∀ r, processDocumentBody J filename env = .ok r →
      processDocument J filename env = r) ∧
    (∀ m, processDocumentBody J filename env = .error m →
      processDocument J filename env =
        fallbackResult ("Document processing error: " ++ m)) ∧
    (∀ msg,
      dictGet (fallbackResult msg) "patient_first_name" "" = "Not Found" ∧
      dictGet (fallbackResult msg) "patient_last_name" "" = "Not Found" ∧
      dictGet (fallbackResult msg) "patient_dob" "" = "Not Found" ∧
      dictGet (fallbackResult msg) "confidence" "" = "low" ∧
      dictGet (fallbackResult msg) "notes" "" = "Processing failed: " ++ msg) := by
  refine ⟨?_, ?_, ?_⟩
  · intro r hr
    simp only [processDocument, hr]
  · intro m hm
    simp only [processDocument, hm]
  · intro msg
    refine ⟨?_, ?_, ?_, ?_, ?_⟩ <;> simp [dictGet, fallbackResult, List.lookup]

/-- Witness for C1: a non-PDF upload whose vision call raises — the
only way an exception reaches the facade — is converted to the fallback
record, and a PDF body (which absorbs all its own errors) passes
through. -/
theorem c1_facade_never_raises_witness :
    processDocument (fun _ => none) "img.png"
        ⟨.ok ⟨[]⟩, .ok "", .error "boom"⟩ =
      fallbackResult "Document processing error: Failed to extract data: boom" ∧
    processDocument (fun _ => none) "scan.pdf"
        ⟨.error (.fileData "bad xref"), .ok "", .ok ""⟩ =
      fallbackResult "PDF file is corrupted: bad xref" ∧
    dictGet (fallbackResult "x") "notes" "" = "Processing failed: x" :=
  ⟨(c1_facade_never_raises (fun _ => none) "img.png"
      ⟨.ok ⟨[]⟩, .ok "", .error "boom"⟩).2.1
      "Failed to extract data: boom" rfl,
   (c1_facade_never_raises (fun _ => none) "scan.pdf"
      ⟨.error (.fileData "bad xref"), .ok "", .ok ""⟩).1
      (fallbackResult "PDF file is corrupted: bad xref") rfl,
   ((c1_facade_never_raises (fun _ => none) "img.png"
      ⟨.ok ⟨[]⟩, .ok "", .error "boom"⟩).2.2 "x").2.2.2.2⟩
